import Mathlib

/-!
Verification of the token-to-instance lifecycle manager of the
fastify-mcp-server repository.

The development shallowly embeds the two core classes of
`src/bearer-provider.ts` — `TokenBasedServerProvider` (credential registry
plus instance cache) and `SessionManager` (session table) — and the
`PerBearerMcpServer` facade of `src/per-bearer-mcp-server.ts`.

Modelling choices:
* a JavaScript `Map` is an insertion-ordered association list
  (`Map.set` replaces in place or appends, `Map.delete` removes the entry);
* an MCP `Server` handle is an opaque identifier (`Nat`);
* a server factory is modelled by the outcome of invoking it
  (`Factory.ok s` for a factory resolving to server `s`, `Factory.error m`
  for one that rejects); operations report how often a factory was invoked;
* `server.close()` calls are reported as an explicit trace; whether a close
  succeeds is supplied by an oracle `closeOk : Server → Bool`, and — as in
  the source, where close errors are caught and logged — the oracle never
  influences control flow;
* asynchronous interleaving of `createServerForToken` at its single
  suspension point (`await factory()`) is modelled separately by a small
  step machine (`raceStep`), used to examine the documented cache race.
-/

namespace FastifyMcp

/-- Opaque handle for an MCP `Server` instance. -/
abbrev Server := Nat

/-- Lookup in an insertion-ordered association list (JS `Map.get`). -/
def lookupKey {α : Type} : List (String × α) → String → Option α
  | [], _ => none
  | (k, v) :: rest, t => if k = t then some v else lookupKey rest t

/-- Insert or replace in an association list (JS `Map.set`): an existing
key keeps its position, a new key is appended. -/
def insertKey {α : Type} : List (String × α) → String → α → List (String × α)
  | [], t, v => [(t, v)]
  | (k, w) :: rest, t, v =>
      if k = t then (t, v) :: rest else (k, w) :: insertKey rest t v

/-- Remove a key from an association list (JS `Map.delete`). -/
def eraseKey {α : Type} : List (String × α) → String → List (String × α)
  | [], _ => []
  | (k, w) :: rest, t => if k = t then rest else (k, w) :: eraseKey rest t


/-! ## TokenBasedServerProvider (src/bearer-provider.ts, lines 22-157) -/

/-- A server factory, modelled by the outcome of invoking it: a factory
either resolves to a server instance or rejects with an error message. -/
inductive Factory where
  | ok (server : Server)
  | error (msg : String)
deriving DecidableEq, Repr

/-- The `AuthInfo` value returned by `verifyAccessToken`. -/
structure AuthInfo where
  token : String
  clientId : String
  scopes : List String
deriving DecidableEq, Repr

/-- Outcome of `createServerForToken`: a server, the
`No server factory found for token` error, or a propagated factory error. -/
inductive CreateResult where
  | ok (server : Server)
  | noFactory
  | factoryError (msg : String)
deriving DecidableEq, Repr

/-- The result a factory produces when it is actually invoked. -/
def Factory.invoke : Factory → CreateResult
  | .ok server => .ok server
  | .error msg => .factoryError msg

/-- State of a `TokenBasedServerProvider`: the credential registry
(`tokenToServerFactory`) and the instance cache (`activeServers`). -/
structure Provider where
  tokenToServerFactory : List (String × Factory)
  activeServers : List (String × Server)
deriving DecidableEq, Repr

/-- `removeActiveServer` (lines 94-104): if a server is cached for the
token, close it (the attempt is recorded in the returned trace; a close
failure is only logged) and drop the cache entry. -/
def Provider.removeActiveServer (p : Provider) (token : String) :
    Provider × List Server :=
  match lookupKey p.activeServers token with
  | some server =>
      ({ p with activeServers := eraseKey p.activeServers token }, [server])
  | none => (p, [])

/-- `addToken` (lines 33-37): register (insert or replace) the factory,
then remove any cached server for this token to force recreation. -/
def Provider.addToken (p : Provider) (token : String) (serverFactory : Factory) :
    Provider × List Server :=
  Provider.removeActiveServer
    { p with tokenToServerFactory := insertKey p.tokenToServerFactory token serverFactory }
    token

/-- `removeToken` (lines 42-48): delete the factory; when it existed, also
remove the cached server. Returns whether the token existed. -/
def Provider.removeToken (p : Provider) (token : String) :
    Bool × Provider × List Server :=
  if (lookupKey p.tokenToServerFactory token).isSome then
    let r := Provider.removeActiveServer
      { p with tokenToServerFactory := eraseKey p.tokenToServerFactory token } token
    (true, r.1, r.2)
  else
    (false, p, [])

/-- `updateToken` (lines 53-60): replace the factory only when the token is
already registered, and then drop the cached server. -/
def Provider.updateToken (p : Provider) (token : String) (serverFactory : Factory) :
    Bool × Provider × List Server :=
  if (lookupKey p.tokenToServerFactory token).isSome then
    let r := Provider.removeActiveServer
      { p with tokenToServerFactory := insertKey p.tokenToServerFactory token serverFactory }
      token
    (true, r.1, r.2)
  else
    (false, p, [])

/-- `hasToken` (lines 72-74). -/
def Provider.hasToken (p : Provider) (token : String) : Bool :=
  (lookupKey p.tokenToServerFactory token).isSome

/-- `getRegisteredTokens` (lines 65-67). -/
def Provider.getRegisteredTokens (p : Provider) : List String :=
  p.tokenToServerFactory.map Prod.fst

/-- `clearAllTokens` (lines 86-89): clear the registry and close every
cached server (the close attempts are returned as a trace). -/
def Provider.clearAllTokens (p : Provider) : Provider × List Server :=
  (⟨[], []⟩, p.activeServers.map Prod.snd)

/-- `verifyAccessToken` (lines 114-124): fail with `Invalid token` when the
token is not registered, otherwise return the minimal principal. -/
def Provider.verifyAccessToken (p : Provider) (token : String) :
    Except String AuthInfo :=
  if (lookupKey p.tokenToServerFactory token).isSome then
    .ok { token := token, clientId := "client-" ++ token, scopes := [] }
  else
    .error "Invalid token"

/-- `createServerForToken` (lines 126-141): return the cached server if one
exists; otherwise look up the factory (failing with `noFactory` when
absent), invoke it, and cache a successful result. The last component
counts how often the factory was invoked during this call. -/
def Provider.createServerForToken (p : Provider) (token : String) :
    CreateResult × Provider × Nat :=
  match lookupKey p.activeServers token with
  | some existingServer => (.ok existingServer, p, 0)
  | none =>
      match lookupKey p.tokenToServerFactory token with
      | none => (.noFactory, p, 0)
      | some factory =>
          match factory with
          | .ok server =>
              (.ok server,
               { p with activeServers := insertKey p.activeServers token server }, 1)
          | .error msg => (.factoryError msg, p, 1)

/-- The record returned by `getStats` (lines 146-156). -/
structure Stats where
  registeredTokens : Nat
  activeServers : Nat
  tokens : List String
deriving DecidableEq, Repr

/-- `getStats` (lines 146-156). -/
def Provider.getStats (p : Provider) : Stats :=
  { registeredTokens := p.tokenToServerFactory.length,
    activeServers := p.activeServers.length,
    tokens := p.tokenToServerFactory.map Prod.fst }

/-! ## SessionManager (src/bearer-provider.ts, lines 180-297) -/

/-- The per-session record kept by the session manager: a transport handle
and the server the session is bound to. -/
structure SMSessionInfo where
  transport : Nat
  server : Server
deriving DecidableEq, Repr

/-- Events emitted by the session manager. -/
inductive SMEvent where
  | sessionCreated (sessionId : String)
  | sessionDestroyed (sessionId : String)
deriving DecidableEq, Repr

/-- State of a `SessionManager`: the session map and the optional shared
default server. -/
structure SessionManagerState where
  sessions : List (String × SMSessionInfo)
  defaultServer : Option Server
deriving DecidableEq, Repr

/-- Result of `destroySession`: the returned boolean, the new state, the
emitted events, and the trace of `server.close()` attempts, each paired
with whether the close succeeded (failures are caught and logged, never
propagated). -/
structure DestroyResult where
  deleted : Bool
  state : SessionManagerState
  events : List SMEvent
  closes : List (Server × Bool)
deriving DecidableEq, Repr

/-- `destroySession` (lines 260-281): when the session exists, close its
server unless it is the default server (a close failure is only logged),
delete the entry and emit `sessionDestroyed`; return whether the session
existed. -/
def SessionManagerState.destroySession (closeOk : Server → Bool)
    (sm : SessionManagerState) (sessionId : String) : DestroyResult :=
  match lookupKey sm.sessions sessionId with
  | none => ⟨false, sm, [], []⟩
  | some sessionInfo =>
      let closes :=
        if some sessionInfo.server = sm.defaultServer then []
        else [(sessionInfo.server, closeOk sessionInfo.server)]
      ⟨true, { sm with sessions := eraseKey sm.sessions sessionId },
       [.sessionDestroyed sessionId], closes⟩

/-- `getSessionCount` (lines 286-288). -/
def SessionManagerState.getSessionCount (sm : SessionManagerState) : Nat :=
  sm.sessions.length

/-- The sweep inside `destroyAllSessions`: destroy each listed session id in
turn, accumulating events and close attempts. Each destroy runs to
completion regardless of close failures, so the sweep never aborts. -/
def SessionManagerState.destroySessionsList (closeOk : Server → Bool)
    (sm : SessionManagerState) :
    List String → SessionManagerState × List SMEvent × List (Server × Bool)
  | [] => (sm, [], [])
  | sessionId :: rest =>
      let r := sm.destroySession closeOk sessionId
      let rest' := SessionManagerState.destroySessionsList closeOk r.state rest
      (rest'.1, r.events ++ rest'.2.1, r.closes ++ rest'.2.2)

/-- `destroyAllSessions` (lines 293-296): destroy every session currently in
the table. -/
def SessionManagerState.destroyAllSessions (closeOk : Server → Bool)
    (sm : SessionManagerState) :
    SessionManagerState × List SMEvent × List (Server × Bool) :=
  sm.destroySessionsList closeOk (sm.sessions.map Prod.fst)

/-! ## PerBearerMcpServer facade (src/per-bearer-mcp-server.ts) -/

/-- The facade's per-session record (`SessionInfo`, lines 36-41; the
`createdAt` timestamp is irrelevant to the claims and omitted). -/
structure SessionInfo where
  sessionId : String
  token : String
  serverName : String
deriving DecidableEq, Repr

/-- Facade events relevant to token removal (lines 87-95). `serverRemoved`
carries the `ServerRemovalInfo` fields `token`, `serverName` and
`hadActiveSessions` (the `removedAt` timestamp is omitted). -/
inductive FEvent where
  | tokenAdded (token : String)
  | tokenRemoved (token : String)
  | tokenUpdated (token : String)
  | serverRemoved (token : String) (serverName : String) (hadActiveSessions : Bool)
deriving DecidableEq, Repr

/-- State of a `PerBearerMcpServer`: its token provider and the
`activeSessions` map from session id to session info. -/
structure PerBearerState where
  tokenProvider : Provider
  activeSessions : List (String × SessionInfo)
deriving DecidableEq, Repr

/-- The scan in `removeToken` (lines 155-156):
`Array.from(this.activeSessions.values()).filter(s => s.token === token)`. -/
def PerBearerState.sessionsForToken (st : PerBearerState) (token : String) :
    List SessionInfo :=
  (st.activeSessions.map Prod.snd).filter (fun session => session.token = token)

/-- Facade `removeToken` (lines 153-171): scan the active sessions for the
token before removal; delegate to the provider; when the token existed,
emit `serverRemoved` (with `hadActiveSessions` from the scan) and then
`tokenRemoved`. -/
def PerBearerState.removeToken (st : PerBearerState) (token : String) :
    PerBearerState × List FEvent :=
  let sessionsForToken := st.sessionsForToken token
  let r := st.tokenProvider.removeToken token
  if r.1 then
    ({ st with tokenProvider := r.2.1 },
     [.serverRemoved token "unknown-server" (decide (sessionsForToken.length > 0)),
      .tokenRemoved token])
  else
    ({ st with tokenProvider := r.2.1 }, [])

/-! ## Interleaved executions of createServerForToken

`createServerForToken` has a single suspension point, `await factory()`.
A call is therefore a two-phase task: before the await it reads the cache
and the registry and — on a cache miss with a registered factory — invokes
the factory; after the await it stores the produced server and returns it.
`gen k` is the server produced by the `k`-th factory invocation overall
(factories are re-invocable and may yield a distinct instance each time). -/

/-- A task running one `createServerForToken` call. -/
inductive TaskState where
  | ready (token : String)
  | storing (token : String) (server : Server)
  | finished (result : CreateResult)
deriving DecidableEq, Repr

/-- Shared world for interleaved calls: the provider state and the number
of factory invocations performed so far. -/
structure RaceWorld where
  provider : Provider
  factoryCalls : Nat
deriving DecidableEq, Repr

/-- One scheduling step of a `createServerForToken` task, faithful to
lines 126-141: a `ready` task checks the cache, then the registry, and on a
miss invokes the factory and suspends; a `storing` task resumes after the
await, writes the cache entry and returns the server. -/
def raceStep (gen : Nat → Server) (w : RaceWorld) :
    TaskState → RaceWorld × TaskState
  | .ready token =>
      match lookupKey w.provider.activeServers token with
      | some existingServer => (w, .finished (.ok existingServer))
      | none =>
          match lookupKey w.provider.tokenToServerFactory token with
          | none => (w, .finished .noFactory)
          | some _ =>
              ({ w with factoryCalls := w.factoryCalls + 1 },
               .storing token (gen w.factoryCalls))
  | .storing token server =>
      ({ w with provider :=
          { w.provider with
            activeServers := insertKey w.provider.activeServers token server } },
       .finished (.ok server))
  | .finished result => (w, .finished result)

/-- Run two interleaved tasks under a schedule (`true` steps the first
task, `false` the second). -/
def raceRun (gen : Nat → Server) :
    RaceWorld → TaskState → TaskState → List Bool → RaceWorld × TaskState × TaskState
  | w, ta, tb, [] => (w, ta, tb)
  | w, ta, tb, true :: rest =>
      let r := raceStep gen w ta
      raceRun gen r.1 r.2 tb rest
  | w, ta, tb, false :: rest =>
      let r := raceStep gen w tb
      raceRun gen r.1 ta r.2 rest

/-! ## Operation sequences over a TokenBasedServerProvider -/

/-- The public state-mutating operations of `TokenBasedServerProvider`. -/
inductive ProviderOp where
  | addToken (token : String) (factory : Factory)
  | removeToken (token : String)
  | updateToken (token : String) (factory : Factory)
  | clearAllTokens
  | createServerForToken (token : String)
deriving DecidableEq, Repr

/-- The provider state after one completed operation. -/
def Provider.applyOp (p : Provider) : ProviderOp → Provider
  | .addToken t f => (p.addToken t f).1
  | .removeToken t => (p.removeToken t).2.1
  | .updateToken t f => (p.updateToken t f).2.1
  | .clearAllTokens => (Provider.clearAllTokens p).1
  | .createServerForToken t => (p.createServerForToken t).2.1

/-- Provider invariant: both maps have distinct keys (as JS `Map`s do), and
every credential with a cached active server also has a registered
factory. -/
def Provider.Inv (p : Provider) : Prop :=
  (p.tokenToServerFactory.map Prod.fst).Nodup ∧
  (p.activeServers.map Prod.fst).Nodup ∧
  ∀ t, (lookupKey p.activeServers t).isSome →
    (lookupKey p.tokenToServerFactory t).isSome

/-! ## Association-list lemmas -/

theorem lookupKey_insertKey {α : Type} (l : List (String × α)) (t k : String) (v : α) :
    lookupKey (insertKey l t v) k = if k = t then some v else lookupKey l k := by
  induction l with
  | nil =>
      by_cases h : k = t
      · subst h; simp [insertKey, lookupKey]
      · simp [insertKey, lookupKey, h, Ne.symm h]
  | cons hd rest ih =>
      obtain ⟨k', w⟩ := hd
      by_cases hk : k' = t
      · subst hk
        by_cases hkt : k = k'
        · subst hkt; simp [insertKey, lookupKey]
        · simp [insertKey, lookupKey, hkt, Ne.symm hkt]
      · by_cases hkk : k' = k
        · subst hkk
          have hkt : ¬ k' = t := hk
          simp [insertKey, lookupKey, hk, hkt]
        · simp [insertKey, lookupKey, hk, hkk, ih]

theorem lookupKey_insertKey_self {α : Type} (l : List (String × α)) (t : String) (v : α) :
    lookupKey (insertKey l t v) t = some v := by
  simp [lookupKey_insertKey]

theorem lookupKey_eraseKey_ne {α : Type} (l : List (String × α)) (t k : String)
    (h : k ≠ t) : lookupKey (eraseKey l t) k = lookupKey l k := by
  induction l with
  | nil => simp [eraseKey]
  | cons hd rest ih =>
      obtain ⟨k', w⟩ := hd
      by_cases hk : k' = t
      · subst hk
        simp [eraseKey, lookupKey, Ne.symm h]
      · by_cases hkk : k' = k <;> simp [eraseKey, lookupKey, hk, hkk, ih, h]

theorem isSome_lookupKey_iff_mem {α : Type} (l : List (String × α)) (k : String) :
    (lookupKey l k).isSome ↔ k ∈ l.map Prod.fst := by
  induction l with
  | nil => simp [lookupKey]
  | cons hd rest ih =>
      obtain ⟨k', w⟩ := hd
      by_cases hk : k' = k
      · subst hk; simp [lookupKey]
      · simp [lookupKey, hk, ih]
        intro h; exact absurd h.symm hk

theorem lookupKey_eraseKey_self {α : Type} (l : List (String × α)) (t : String)
    (hnd : (l.map Prod.fst).Nodup) : lookupKey (eraseKey l t) t = none := by
  induction l with
  | nil => simp [eraseKey, lookupKey]
  | cons hd rest ih =>
      obtain ⟨k', w⟩ := hd
      simp only [List.map_cons, List.nodup_cons] at hnd
      by_cases hk : k' = t
      · subst hk
        have : ¬ (lookupKey rest k').isSome := by
          rw [isSome_lookupKey_iff_mem]; exact hnd.1
        simp [eraseKey]
        cases hlk : lookupKey rest k' with
        | none => rfl
        | some _ => rw [hlk] at this; simp at this
      · simp [eraseKey, lookupKey, hk, ih hnd.2]

theorem keys_eraseKey_sublist {α : Type} (l : List (String × α)) (t : String) :
    ((eraseKey l t).map Prod.fst).Sublist (l.map Prod.fst) := by
  induction l with
  | nil => simp [eraseKey]
  | cons hd rest ih =>
      obtain ⟨k', w⟩ := hd
      by_cases hk : k' = t
      · subst hk
        simp only [eraseKey, if_pos rfl]
        exact (List.Sublist.refl _).cons _
      · simpa [eraseKey, hk] using ih.cons₂ k'

theorem nodup_keys_eraseKey {α : Type} (l : List (String × α)) (t : String)
    (hnd : (l.map Prod.fst).Nodup) : ((eraseKey l t).map Prod.fst).Nodup :=
  hnd.sublist (keys_eraseKey_sublist l t)

theorem mem_keys_insertKey {α : Type} (l : List (String × α)) (t k : String) (v : α) :
    k ∈ (insertKey l t v).map Prod.fst ↔ k ∈ l.map Prod.fst ∨ k = t := by
  induction l with
  | nil => simp [insertKey]
  | cons hd rest ih =>
      obtain ⟨k', w⟩ := hd
      by_cases hk : k' = t
      · subst hk
        have he : insertKey ((k', w) :: rest) k' v = (k', v) :: rest := by
          simp [insertKey]
        rw [he]
        simp only [List.map_cons, List.mem_cons]
        tauto
      · have he : insertKey ((k', w) :: rest) t v = (k', w) :: insertKey rest t v := by
          simp [insertKey, hk]
        rw [he]
        simp only [List.map_cons, List.mem_cons, ih]
        tauto

theorem nodup_keys_insertKey {α : Type} (l : List (String × α)) (t : String) (v : α)
    (hnd : (l.map Prod.fst).Nodup) : ((insertKey l t v).map Prod.fst).Nodup := by
  induction l with
  | nil => simp [insertKey]
  | cons hd rest ih =>
      obtain ⟨k', w⟩ := hd
      simp only [List.map_cons, List.nodup_cons] at hnd
      by_cases hk : k' = t
      · subst hk
        have he : insertKey ((k', w) :: rest) k' v = (k', v) :: rest := by
          simp [insertKey]
        rw [he]
        simp only [List.map_cons, List.nodup_cons]
        exact ⟨hnd.1, hnd.2⟩
      · have he : insertKey ((k', w) :: rest) t v = (k', w) :: insertKey rest t v := by
          simp [insertKey, hk]
        rw [he]
        simp only [List.map_cons, List.nodup_cons]
        refine ⟨?_, ih hnd.2⟩
        rw [mem_keys_insertKey]
        rintro (h | h)
        · exact hnd.1 h
        · exact hk h

theorem length_eraseKey_of_lookup {α : Type} (l : List (String × α)) (t : String)
    (v : α) (h : lookupKey l t = some v) : (eraseKey l t).length + 1 = l.length := by
  induction l with
  | nil => simp [lookupKey] at h
  | cons hd rest ih =>
      obtain ⟨k', w⟩ := hd
      by_cases hk : k' = t
      · simp [eraseKey, hk]
      · rw [lookupKey, if_neg hk] at h
        simp [eraseKey, hk, ih h]


/-! ## Claim C2: cache identity -/

/-- Claim C2: for a credential with a registered (successfully resolving)
factory and no cached instance, two sequential `createServerForToken` calls
with no intervening mutation return the same backend instance, and the
factory is invoked exactly once across the two calls. -/
theorem cache_identity (p : Provider) (token : String) (s : Server)
    (hreg : lookupKey p.tokenToServerFactory token = some (.ok s))
    (hmiss : lookupKey p.activeServers token = none) :
    (p.createServerForToken token).1 = .ok s ∧
    ((p.createServerForToken token).2.1.createServerForToken token).1 = .ok s ∧
    (p.createServerForToken token).2.2 +
      ((p.createServerForToken token).2.1.createServerForToken token).2.2 = 1 := by
  simp [Provider.createServerForToken, hreg, hmiss, lookupKey_insertKey_self]

/-- Witness for C2 at a concrete provider. -/
theorem cache_identity_witness :
    (Provider.createServerForToken ⟨[("t", .ok 5)], []⟩ "t").1 = .ok 5 ∧
    ((Provider.createServerForToken ⟨[("t", .ok 5)], []⟩ "t").2.1.createServerForToken
        "t").1 = .ok 5 ∧
    (Provider.createServerForToken ⟨[("t", .ok 5)], []⟩ "t").2.2 +
      ((Provider.createServerForToken ⟨[("t", .ok 5)], []⟩ "t").2.1.createServerForToken
          "t").2.2 = 1 :=
  cache_identity ⟨[("t", .ok 5)], []⟩ "t" 5 (by decide) (by decide)

/-! ## Claim C6: factory failure leaves the cache untouched -/

/-- Claim C6: when the registered factory fails, `createServerForToken`
propagates the failure, stores no cache entry (the provider state is
unchanged), and a subsequent call retries the factory cleanly (it is
invoked again and fails the same way, still leaving the state unchanged). -/
theorem factory_failure_no_cache (p : Provider) (token msg : String)
    (hmiss : lookupKey p.activeServers token = none)
    (hreg : lookupKey p.tokenToServerFactory token = some (.error msg)) :
    p.createServerForToken token = (.factoryError msg, p, 1) ∧
    (p.createServerForToken token).2.1.createServerForToken token =
      (.factoryError msg, p, 1) := by
  have h1 : p.createServerForToken token = (.factoryError msg, p, 1) := by
    simp [Provider.createServerForToken, hmiss, hreg]
  exact ⟨h1, by rw [h1]; exact h1⟩

/-- Witness for C6 at a concrete provider. -/
theorem factory_failure_no_cache_witness :
    Provider.createServerForToken ⟨[("t", .error "boom")], []⟩ "t" =
      (.factoryError "boom", ⟨[("t", .error "boom")], []⟩, 1) ∧
    (Provider.createServerForToken ⟨[("t", .error "boom")], []⟩
        "t").2.1.createServerForToken "t" =
      (.factoryError "boom", ⟨[("t", .error "boom")], []⟩, 1) :=
  factory_failure_no_cache ⟨[("t", .error "boom")], []⟩ "t" "boom"
    (by decide) (by decide)

/-! ## Claim C9: verification fails exactly for unregistered tokens -/

/-- Claim C9: `verifyAccessToken` fails if and only if the token is not in
the credential registry; for a registered token it returns the principal
made of the token itself, the derived client id `client-` + token, and an
empty scope list. -/
theorem verify_token_principal (p : Provider) (token : String) :
    (p.verifyAccessToken token = .error "Invalid token" ↔
      lookupKey p.tokenToServerFactory token = none) ∧
    ((lookupKey p.tokenToServerFactory token).isSome →
      p.verifyAccessToken token =
        .ok { token := token, clientId := "client-" ++ token, scopes := [] }) := by
  cases hl : lookupKey p.tokenToServerFactory token with
  | none => simp [Provider.verifyAccessToken, hl]
  | some f => simp [Provider.verifyAccessToken, hl]

/-- Witness for C9 at concrete providers (one registered token, one
unregistered). -/
theorem verify_token_principal_witness :
    Provider.verifyAccessToken ⟨[("t", .ok 5)], []⟩ "t" =
      .ok { token := "t", clientId := "client-" ++ "t", scopes := [] } ∧
    Provider.verifyAccessToken ⟨[], []⟩ "t" = .error "Invalid token" :=
  ⟨(verify_token_principal ⟨[("t", .ok 5)], []⟩ "t").2 (by decide),
   (verify_token_principal ⟨[], []⟩ "t").1.mpr (by decide)⟩

/-! ## Claim C1: removal reporting by the facade -/

/-- Claim C1: removing a registered credential through the facade emits
exactly one `serverRemoved` event whose `hadActiveSessions` flag equals
`K > 0`, where `K` is the number of entries of the session table whose
recorded credential matches the removed one, scanned before removal, and
that event is immediately followed by the `tokenRemoved` event. -/
theorem removal_reporting (st : PerBearerState) (token : String)
    (hreg : (lookupKey st.tokenProvider.tokenToServerFactory token).isSome) :
    (st.removeToken token).2 =
      [FEvent.serverRemoved token "unknown-server"
        (decide ((st.sessionsForToken token).length > 0)),
       FEvent.tokenRemoved token] := by
  simp [PerBearerState.removeToken, Provider.removeToken, hreg]

/-- Witness for C1: a facade with one registered token and one live session
recorded for it emits `serverRemoved` with `hadActiveSessions = true`,
then `tokenRemoved`. -/
theorem removal_reporting_witness :
    (PerBearerState.removeToken
        ⟨⟨[("t", .ok 1)], []⟩, [("s1", ⟨"s1", "t", "srv"⟩)]⟩ "t").2 =
      [FEvent.serverRemoved "t" "unknown-server" true,
       FEvent.tokenRemoved "t"] := by
  rw [removal_reporting _ _ (by decide)]
  decide

/-! ## Claim C7: destroySession semantics and idempotence -/

/-- Claim C7: for a session id present in the table, `destroySession`
closes the bound backend instance only when it differs from the shared
default instance, removes the entry (the count drops by one), emits
`sessionDestroyed` and returns true; on the resulting state a second
`destroySession` for the same id returns false and has no effect. For an
absent id it returns false with no effect at all. -/
theorem session_destroy_spec (closeOk : Server → Bool) (sm : SessionManagerState)
    (sessionId : String) (hwf : (sm.sessions.map Prod.fst).Nodup) :
    (∀ info, lookupKey sm.sessions sessionId = some info →
      (sm.destroySession closeOk sessionId).deleted = true ∧
      (sm.destroySession closeOk sessionId).state.getSessionCount + 1 =
        sm.getSessionCount ∧
      (sm.destroySession closeOk sessionId).events =
        [SMEvent.sessionDestroyed sessionId] ∧
      (sm.destroySession closeOk sessionId).closes =
        (if some info.server = sm.defaultServer then []
         else [(info.server, closeOk info.server)]) ∧
      ((sm.destroySession closeOk sessionId).state.destroySession closeOk
          sessionId).deleted = false ∧
      ((sm.destroySession closeOk sessionId).state.destroySession closeOk
          sessionId).state = (sm.destroySession closeOk sessionId).state) ∧
    (lookupKey sm.sessions sessionId = none →
      sm.destroySession closeOk sessionId = ⟨false, sm, [], []⟩) := by
  constructor
  · intro info hinfo
    have hnone : lookupKey (eraseKey sm.sessions sessionId) sessionId = none :=
      lookupKey_eraseKey_self _ _ hwf
    refine ⟨?_, ?_, ?_, ?_, ?_, ?_⟩ <;>
      simp [SessionManagerState.destroySession, hinfo, hnone,
        SessionManagerState.getSessionCount,
        length_eraseKey_of_lookup _ _ _ hinfo]
  · intro hnone
    simp [SessionManagerState.destroySession, hnone]

/-- Witness for C7: destroying a concrete session bound to a non-default
server returns true and closes that server; destroying it again returns
false. -/
theorem session_destroy_spec_witness :
    ((⟨[("s1", ⟨0, 7⟩)], some 1⟩ : SessionManagerState).destroySession
        (fun _ => true) "s1").deleted = true ∧
    ((⟨[("s1", ⟨0, 7⟩)], some 1⟩ : SessionManagerState).destroySession
        (fun _ => true) "s1").closes = [(7, true)] ∧
    (((⟨[("s1", ⟨0, 7⟩)], some 1⟩ : SessionManagerState).destroySession
        (fun _ => true) "s1").state.destroySession (fun _ => true)
        "s1").deleted = false := by
  have h := (session_destroy_spec (fun _ => true)
      ⟨[("s1", ⟨0, 7⟩)], some 1⟩ "s1" (by decide)).1 ⟨0, 7⟩ (by decide)
  refine ⟨h.1, ?_, h.2.2.2.2.1⟩
  have hc := h.2.2.2.1
  simpa using hc

/-! ## Claim C4: who closes backend instances -/

/-- Claim C4 is false on the code: `SessionManager.destroySession` does
invoke `close()` on a backend instance. Counterexample: a session table
holding one session bound to server 7 while the default server is 1;
destroying that session produces a non-empty close trace. -/
theorem session_table_close_counterexample :
    ¬ ((⟨[("s1", ⟨0, 7⟩)], some 1⟩ : SessionManagerState).destroySession
        (fun _ => true) "s1").closes = [] := by
  decide

/-- Amended C4: the session table does close backend instances of its own:
`destroySession` closes the session's bound instance exactly when the
session exists and its instance is not the shared default instance, so
instance closing is not exclusive to the `TokenBasedServerProvider`. -/
theorem session_destroy_close_characterization (closeOk : Server → Bool)
    (sm : SessionManagerState) (sessionId : String) :
    (sm.destroySession closeOk sessionId).closes =
      (match lookupKey sm.sessions sessionId with
       | none => []
       | some info =>
          if some info.server = sm.defaultServer then []
          else [(info.server, closeOk info.server)]) := by
  cases h : lookupKey sm.sessions sessionId <;>
    simp [SessionManagerState.destroySession, h]

/-! ## Claim C5: invalidation on registry mutation -/

/-- Claim C5: when a stale instance is cached for a credential, re-adding
the credential with a new factory makes the next `createServerForToken`
invoke the new factory exactly once and return its result (never the stale
instance), and removing the credential makes the subsequent
`verifyAccessToken` fail with `Invalid token`. -/
theorem invalidation_on_mutation (q : Provider) (token : String) (s0 : Server)
    (f2 : Factory)
    (hwfc : (q.activeServers.map Prod.fst).Nodup)
    (hwfr : (q.tokenToServerFactory.map Prod.fst).Nodup)
    (hstale : lookupKey q.activeServers token = some s0) :
    (((q.addToken token f2).1.createServerForToken token).1 = f2.invoke ∧
     ((q.addToken token f2).1.createServerForToken token).2.2 = 1) ∧
    (q.removeToken token).2.1.verifyAccessToken token = .error "Invalid token" := by
  have hmiss : lookupKey (eraseKey q.activeServers token) token = none :=
    lookupKey_eraseKey_self _ _ hwfc
  constructor
  · have hq1 : (q.addToken token f2).1 =
        { tokenToServerFactory := insertKey q.tokenToServerFactory token f2,
          activeServers := eraseKey q.activeServers token } := by
      simp [Provider.addToken, Provider.removeActiveServer, hstale]
    rw [hq1]
    cases f2 <;>
      simp [Provider.createServerForToken, hmiss, lookupKey_insertKey_self,
        Factory.invoke]
  · by_cases hreg : (lookupKey q.tokenToServerFactory token).isSome
    · have h2 : (q.removeToken token).2.1 =
          { tokenToServerFactory := eraseKey q.tokenToServerFactory token,
            activeServers := eraseKey q.activeServers token } := by
        simp [Provider.removeToken, hreg, Provider.removeActiveServer, hstale]
      rw [h2]
      simp [Provider.verifyAccessToken, lookupKey_eraseKey_self _ _ hwfr]
    · have h2 : (q.removeToken token).2.1 = q := by
        simp [Provider.removeToken, hreg]
      rw [h2]
      simp [Provider.verifyAccessToken, hreg]

/-- Witness for C5 at a concrete provider whose credential has a stale
cached instance. -/
theorem invalidation_on_mutation_witness :
    ((((⟨[("t", .ok 1)], [("t", 1)]⟩ : Provider).addToken "t"
          (.ok 2)).1.createServerForToken "t").1 = (Factory.ok 2).invoke ∧
     (((⟨[("t", .ok 1)], [("t", 1)]⟩ : Provider).addToken "t"
          (.ok 2)).1.createServerForToken "t").2.2 = 1) ∧
    ((⟨[("t", .ok 1)], [("t", 1)]⟩ : Provider).removeToken
        "t").2.1.verifyAccessToken "t" = .error "Invalid token" :=
  invalidation_on_mutation ⟨[("t", .ok 1)], [("t", 1)]⟩ "t" 1 (.ok 2)
    (by decide) (by decide) (by decide)

/-! ## Claim C8: destroyAllSessions completeness -/

/-- Sweeping the table's own key list destroys every session: the table
ends empty, every session gets a `sessionDestroyed` event, and a close is
attempted on each bound server that is not the default one. -/
theorem destroySessionsList_all (closeOk : Server → Bool) (d : Option Server)
    (l : List (String × SMSessionInfo)) :
    SessionManagerState.destroySessionsList closeOk ⟨l, d⟩ (l.map Prod.fst) =
      (⟨[], d⟩, l.map (fun kv => SMEvent.sessionDestroyed kv.1),
       l.filterMap (fun kv =>
         if some kv.2.server = d then none
         else some (kv.2.server, closeOk kv.2.server))) := by
  induction l with
  | nil => simp [SessionManagerState.destroySessionsList]
  | cons hd rest ih =>
      obtain ⟨k, info⟩ := hd
      have hfirst :
          (⟨(k, info) :: rest, d⟩ : SessionManagerState).destroySession closeOk k =
            ⟨true, ⟨rest, d⟩, [SMEvent.sessionDestroyed k],
             if some info.server = d then []
             else [(info.server, closeOk info.server)]⟩ := by
        simp [SessionManagerState.destroySession, lookupKey, eraseKey]
      by_cases hs : some info.server = d <;>
        simp [SessionManagerState.destroySessionsList, hfirst, ih, hs,
          List.filterMap_cons]

/-- Claim C8: after `destroyAllSessions` the session table is empty, and
every backend instance that was bound to a live session and is not the
shared default instance has received a close attempt — for every close
oracle, so an individual close failure never aborts the sweep. -/
theorem shutdown_completeness (closeOk : Server → Bool)
    (sm : SessionManagerState) :
    (sm.destroyAllSessions closeOk).1.sessions = [] ∧
    ∀ sessionId info, (sessionId, info) ∈ sm.sessions →
      some info.server ≠ sm.defaultServer →
      (info.server, closeOk info.server) ∈ (sm.destroyAllSessions closeOk).2.2 := by
  obtain ⟨l, d⟩ := sm
  have h := destroySessionsList_all closeOk d l
  constructor
  · show (SessionManagerState.destroySessionsList closeOk ⟨l, d⟩
        (l.map Prod.fst)).1.sessions = []
    rw [h]
  · intro sessionId info hmem hne
    show (info.server, closeOk info.server) ∈
      (SessionManagerState.destroySessionsList closeOk ⟨l, d⟩
        (l.map Prod.fst)).2.2
    rw [h]
    exact List.mem_filterMap.mpr ⟨(sessionId, info), hmem, by simp [hne]⟩

/-- Witness for C8: a table with two sessions (one bound to the default
server 3, one to server 7) swept with an always-failing close oracle still
empties the table, and server 7 received a (failing) close attempt. -/
theorem shutdown_completeness_witness :
    ((⟨[("s1", ⟨0, 7⟩), ("s2", ⟨0, 3⟩)], some 3⟩ :
        SessionManagerState).destroyAllSessions (fun _ => false)).1.sessions = [] ∧
    (7, false) ∈ ((⟨[("s1", ⟨0, 7⟩), ("s2", ⟨0, 3⟩)], some 3⟩ :
        SessionManagerState).destroyAllSessions (fun _ => false)).2.2 :=
  ⟨(shutdown_completeness (fun _ => false)
      ⟨[("s1", ⟨0, 7⟩), ("s2", ⟨0, 3⟩)], some 3⟩).1,
   (shutdown_completeness (fun _ => false)
      ⟨[("s1", ⟨0, 7⟩), ("s2", ⟨0, 3⟩)], some 3⟩).2 "s1" ⟨0, 7⟩
      (by decide) (by decide)⟩

/-! ## Claim C3: concurrent resolution of an uncached credential -/

/-- Claim C3 fails on the code: `createServerForToken` has no per-credential
guard around its `await factory()` suspension point. With token `t`
registered and uncached, two interleaved calls that each pass the cache
check before either stores a result invoke the factory twice, and the two
callers observe distinct instances (the `k`-th factory invocation yields
server `k`); the second store overwrites the first cache entry. -/
theorem concurrent_resolve_double_invocation :
    (raceRun (fun k => k) ⟨⟨[("t", .ok 0)], []⟩, 0⟩
        (.ready "t") (.ready "t") [true, false, true, false]).1.factoryCalls = 2 ∧
    (raceRun (fun k => k) ⟨⟨[("t", .ok 0)], []⟩, 0⟩
        (.ready "t") (.ready "t") [true, false, true, false]).2.1 =
      .finished (.ok 0) ∧
    (raceRun (fun k => k) ⟨⟨[("t", .ok 0)], []⟩, 0⟩
        (.ready "t") (.ready "t") [true, false, true, false]).2.2 =
      .finished (.ok 1) := by
  decide

/-! ## Claim C10: cached servers stay within the registry -/

theorem isSome_lookupKey_insertKey {α : Type} (l : List (String × α)) (t k : String)
    (v : α) (h : (lookupKey l k).isSome) :
    (lookupKey (insertKey l t v) k).isSome := by
  rw [lookupKey_insertKey]
  by_cases hk : k = t <;> simp [hk, h]

theorem length_le_of_nodup_subset {α : Type} [DecidableEq α] (l1 l2 : List α)
    (h1 : l1.Nodup) (hsub : ∀ x ∈ l1, x ∈ l2) : l1.length ≤ l2.length := by
  calc l1.length = l1.toFinset.card := (List.toFinset_card_of_nodup h1).symm
    _ ≤ l2.toFinset.card := Finset.card_le_card (fun x hx => by
        rw [List.mem_toFinset] at hx ⊢
        exact hsub x hx)
    _ ≤ l2.length := l2.toFinset_card_le

/-- Every completed provider operation preserves the provider invariant. -/
theorem inv_applyOp (p : Provider) (op : ProviderOp) (h : p.Inv) :
    (p.applyOp op).Inv := by
  obtain ⟨hr, hc, hi⟩ := h
  cases op with
  | addToken t f =>
      cases hl : lookupKey p.activeServers t with
      | some s =>
          have hstate : p.applyOp (.addToken t f) =
              { tokenToServerFactory := insertKey p.tokenToServerFactory t f,
                activeServers := eraseKey p.activeServers t } := by
            simp [Provider.applyOp, Provider.addToken,
              Provider.removeActiveServer, hl]
          rw [hstate]
          refine ⟨nodup_keys_insertKey _ _ _ hr, nodup_keys_eraseKey _ _ hc, ?_⟩
          intro t' ht'
          by_cases hne : t' = t
          · subst hne; simp [lookupKey_insertKey_self]
          · rw [lookupKey_eraseKey_ne _ _ _ hne] at ht'
            exact isSome_lookupKey_insertKey _ _ _ _ (hi t' ht')
      | none =>
          have hstate : p.applyOp (.addToken t f) =
              { p with tokenToServerFactory := insertKey p.tokenToServerFactory t f } := by
            simp [Provider.applyOp, Provider.addToken,
              Provider.removeActiveServer, hl]
          rw [hstate]
          exact ⟨nodup_keys_insertKey _ _ _ hr, hc,
            fun t' ht' => isSome_lookupKey_insertKey _ _ _ _ (hi t' ht')⟩
  | removeToken t =>
      by_cases hreg : (lookupKey p.tokenToServerFactory t).isSome
      · cases hl : lookupKey p.activeServers t with
        | some s =>
            have hstate : p.applyOp (.removeToken t) =
                { tokenToServerFactory := eraseKey p.tokenToServerFactory t,
                  activeServers := eraseKey p.activeServers t } := by
              simp [Provider.applyOp, Provider.removeToken, hreg,
                Provider.removeActiveServer, hl]
            rw [hstate]
            refine ⟨nodup_keys_eraseKey _ _ hr, nodup_keys_eraseKey _ _ hc, ?_⟩
            intro t' ht'
            by_cases hne : t' = t
            · subst hne
              rw [lookupKey_eraseKey_self _ _ hc] at ht'
              simp at ht'
            · rw [lookupKey_eraseKey_ne _ _ _ hne] at ht'
              rw [lookupKey_eraseKey_ne _ _ _ hne]
              exact hi t' ht'
        | none =>
            have hstate : p.applyOp (.removeToken t) =
                { p with tokenToServerFactory := eraseKey p.tokenToServerFactory t } := by
              simp [Provider.applyOp, Provider.removeToken, hreg,
                Provider.removeActiveServer, hl]
            rw [hstate]
            refine ⟨nodup_keys_eraseKey _ _ hr, hc, ?_⟩
            intro t' ht'
            by_cases hne : t' = t
            · subst hne; rw [hl] at ht'; simp at ht'
            · rw [lookupKey_eraseKey_ne _ _ _ hne]
              exact hi t' ht'
      · have hstate : p.applyOp (.removeToken t) = p := by
          simp [Provider.applyOp, Provider.removeToken, hreg]
        rw [hstate]
        exact ⟨hr, hc, hi⟩
  | updateToken t f =>
      by_cases hreg : (lookupKey p.tokenToServerFactory t).isSome
      · cases hl : lookupKey p.activeServers t with
        | some s =>
            have hstate : p.applyOp (.updateToken t f) =
                { tokenToServerFactory := insertKey p.tokenToServerFactory t f,
                  activeServers := eraseKey p.activeServers t } := by
              simp [Provider.applyOp, Provider.updateToken, hreg,
                Provider.removeActiveServer, hl]
            rw [hstate]
            refine ⟨nodup_keys_insertKey _ _ _ hr, nodup_keys_eraseKey _ _ hc, ?_⟩
            intro t' ht'
            by_cases hne : t' = t
            · subst hne; simp [lookupKey_insertKey_self]
            · rw [lookupKey_eraseKey_ne _ _ _ hne] at ht'
              exact isSome_lookupKey_insertKey _ _ _ _ (hi t' ht')
        | none =>
            have hstate : p.applyOp (.updateToken t f) =
                { p with tokenToServerFactory := insertKey p.tokenToServerFactory t f } := by
              simp [Provider.applyOp, Provider.updateToken, hreg,
                Provider.removeActiveServer, hl]
            rw [hstate]
            exact ⟨nodup_keys_insertKey _ _ _ hr, hc,
              fun t' ht' => isSome_lookupKey_insertKey _ _ _ _ (hi t' ht')⟩
      · have hstate : p.applyOp (.updateToken t f) = p := by
          simp [Provider.applyOp, Provider.updateToken, hreg]
        rw [hstate]
        exact ⟨hr, hc, hi⟩
  | clearAllTokens =>
      have hstate : p.applyOp .clearAllTokens = ⟨[], []⟩ := by
        simp [Provider.applyOp, Provider.clearAllTokens]
      rw [hstate]
      exact ⟨by simp, by simp, fun t' ht' => by simp [lookupKey] at ht'⟩
  | createServerForToken t =>
      cases hl : lookupKey p.activeServers t with
      | some s =>
          have hstate : p.applyOp (.createServerForToken t) = p := by
            simp [Provider.applyOp, Provider.createServerForToken, hl]
          rw [hstate]
          exact ⟨hr, hc, hi⟩
      | none =>
          cases hf : lookupKey p.tokenToServerFactory t with
          | none =>
              have hstate : p.applyOp (.createServerForToken t) = p := by
                simp [Provider.applyOp, Provider.createServerForToken, hl, hf]
              rw [hstate]
              exact ⟨hr, hc, hi⟩
          | some f =>
              cases f with
              | error msg =>
                  have hstate : p.applyOp (.createServerForToken t) = p := by
                    simp [Provider.applyOp, Provider.createServerForToken, hl, hf]
                  rw [hstate]
                  exact ⟨hr, hc, hi⟩
              | ok s =>
                  have hstate : p.applyOp (.createServerForToken t) =
                      { p with activeServers := insertKey p.activeServers t s } := by
                    simp [Provider.applyOp, Provider.createServerForToken, hl, hf]
                  rw [hstate]
                  refine ⟨hr, nodup_keys_insertKey _ _ _ hc, ?_⟩
                  intro t' ht'
                  rw [lookupKey_insertKey] at ht'
                  by_cases hne : t' = t
                  · subst hne; simp [hf]
                  · rw [if_neg hne] at ht'
                    exact hi t' ht'

/-- The provider invariant holds after any sequence of completed
operations. -/
theorem inv_foldl (ops : List ProviderOp) :
    ∀ p : Provider, p.Inv → (ops.foldl Provider.applyOp p).Inv := by
  induction ops with
  | nil => intro p h; simpa using h
  | cons op rest ih =>
      intro p h
      show (rest.foldl Provider.applyOp (p.applyOp op)).Inv
      exact ih _ (inv_applyOp p op h)

/-- Claim C10: starting from a constructor state (distinct token keys and
an empty cache), after any sequence of completed provider operations every
credential with a cached active server still has a registered factory, and
therefore `getStats().activeServers ≤ getStats().registeredTokens`. -/
theorem cache_within_registry (tokenMappings : List (String × Factory))
    (hnodup : (tokenMappings.map Prod.fst).Nodup) (ops : List ProviderOp) :
    (∀ t, (lookupKey (ops.foldl Provider.applyOp
        ⟨tokenMappings, []⟩).activeServers t).isSome →
      (lookupKey (ops.foldl Provider.applyOp
        ⟨tokenMappings, []⟩).tokenToServerFactory t).isSome) ∧
    ((ops.foldl Provider.applyOp ⟨tokenMappings, []⟩).getStats).activeServers ≤
      ((ops.foldl Provider.applyOp ⟨tokenMappings, []⟩).getStats).registeredTokens := by
  have h0 : (⟨tokenMappings, []⟩ : Provider).Inv :=
    ⟨hnodup, by simp, fun t ht => by simp [lookupKey] at ht⟩
  obtain ⟨hr, hc, hi⟩ := inv_foldl ops _ h0
  refine ⟨hi, ?_⟩
  have hsub : ∀ x ∈ ((ops.foldl Provider.applyOp
      ⟨tokenMappings, []⟩).activeServers.map Prod.fst),
      x ∈ ((ops.foldl Provider.applyOp
        ⟨tokenMappings, []⟩).tokenToServerFactory.map Prod.fst) := by
    intro x hx
    exact (isSome_lookupKey_iff_mem _ _).mp
      (hi x ((isSome_lookupKey_iff_mem _ _).mpr hx))
  have hlen := length_le_of_nodup_subset _ _ hc hsub
  simpa [Provider.getStats] using hlen

/-- Witness for C10 with a concrete constructor state and operation
sequence. -/
theorem cache_within_registry_witness :
    (∀ t, (lookupKey (([ProviderOp.createServerForToken "a"].foldl Provider.applyOp
        ⟨[("a", .ok 1)], []⟩).activeServers) t).isSome →
      (lookupKey (([ProviderOp.createServerForToken "a"].foldl Provider.applyOp
        ⟨[("a", .ok 1)], []⟩).tokenToServerFactory) t).isSome) ∧
    (([ProviderOp.createServerForToken "a"].foldl Provider.applyOp
        ⟨[("a", .ok 1)], []⟩).getStats).activeServers ≤
      (([ProviderOp.createServerForToken "a"].foldl Provider.applyOp
        ⟨[("a", .ok 1)], []⟩).getStats).registeredTokens :=
  cache_within_registry [("a", .ok 1)] (by decide)
    [ProviderOp.createServerForToken "a"]

end FastifyMcp
